import Mathlib

/- Verification of the log-analysis pipeline of `analyzer.py` and `patterns.py`:
   multi-format log-line parsing into a canonical record, format detection, and
   the four analytical passes (spike detection, pattern aggregation, time-range
   slicing, anomaly detection).

   Modelling conventions:
   * Python `datetime` values are modelled as seconds since 0001-01-01 00:00:00,
     naive local time, as an `Int`.
   * A Python function that can either return a value or let an exception escape
     is modelled as `Except PyErr _`; returning the `None` sentinel is `.ok none`.
   * Character classes of the `re` module (`\w`, `\s`, `\d`) are modelled over
     their ASCII meaning; none of the verified properties depends on non-ASCII
     word characters.
   * Python floats are modelled by exact rationals; comparisons against
     `variance ** 0.5` are expressed by squaring (`sqrtGt`), which has the same
     exact-real semantics for the nonnegative quantities involved. -/

namespace LogAnalyzer

/-- Kinds of Python exceptions that can escape the parsers. -/
inductive PyErr where
  | valueError
  | attributeError
  | typeError
deriving DecidableEq, Repr

/-- Canonical parsed-log record; `LogEntry` in `analyzer.py`. -/
structure LogEntry where
  timestamp : Int
  level : String
  message : String
deriving DecidableEq, Repr

/-- ASCII model of the `re` class `\s` (Python whitespace). -/
def pySpace (c : Char) : Bool :=
  c = ' ' || c = '\t' || c = '\n' || c = '\r' || c = '\x0b' || c = '\x0c'

/-- ASCII model of the `re` class `\w` (word characters). -/
def pyWord (c : Char) : Bool :=
  c.isAlphanum || c = '_'

/-- Numeric value of a list of decimal digit characters. -/
def digitsVal (ds : List Char) : Nat :=
  ds.foldl (fun a c => 10 * a + (c.toNat - 48)) 0

/-- Gregorian leap-year test, as in the Python `datetime` module. -/
def isLeap (y : Nat) : Bool :=
  (y % 4 = 0 && y % 100 ≠ 0) || y % 400 = 0

/-- Number of days in a month, as validated by the `datetime` constructor. -/
def daysInMonth (y m : Nat) : Nat :=
  if m = 2 then (if isLeap y then 29 else 28)
  else if m = 4 || m = 6 || m = 9 || m = 11 then 30
  else 31

/-- Days strictly before January 1 of year `y`, counting from year 1. -/
def daysBeforeYear (y : Nat) : Nat :=
  let n := y - 1
  365 * n + n / 4 + n / 400 - n / 100

/-- Days in year `y` strictly before the first day of month `m`. -/
def daysBeforeMonth (y m : Nat) : Nat :=
  (List.range (m - 1)).foldl (fun a i => a + daysInMonth y (i + 1)) 0

/-- Construction of a `datetime` value: validates the field ranges exactly as
    the `datetime` constructor does (raising `ValueError` is modelled by
    `none`), and returns the timestamp in seconds since 0001-01-01. -/
def mkTs (y mo d hh mi ss : Nat) : Option Int :=
  if 1 ≤ y ∧ y ≤ 9999 ∧ 1 ≤ mo ∧ mo ≤ 12 ∧ 1 ≤ d ∧ d ≤ daysInMonth y mo
      ∧ hh ≤ 23 ∧ mi ≤ 59 ∧ ss ≤ 59 then
    some ((86400 * (daysBeforeYear y + daysBeforeMonth y mo + (d - 1))
      + 3600 * hh + 60 * mi + ss : Nat) : Int)
  else none

/-- Exactly `n` decimal digits (the regex `\d{n}`); returns the digits and the
    rest of the input. -/
def takeDigits : Nat → List Char → Option (List Char × List Char)
  | 0, l => some ([], l)
  | _ + 1, [] => none
  | n + 1, c :: r =>
    if c.isDigit then (takeDigits n r).map (fun p => (c :: p.1, p.2)) else none

/-- A single literal character of a regex pattern. -/
def lit (c : Char) : List Char → Option (List Char)
  | [] => none
  | a :: r => if a = c then some r else none

/-- The date-time prefix `\d{4}-\d{2}-\d{2} \d{2}:\d{2}:\d{2}` of the standard
    log pattern; returns the consumed characters (capture group 1) and the rest. -/
def stdDateScan (l : List Char) : Option (List Char × List Char) := do
  let (a, r1) ← takeDigits 4 l
  let r2 ← lit '-' r1
  let (b, r3) ← takeDigits 2 r2
  let r4 ← lit '-' r3
  let (c, r5) ← takeDigits 2 r4
  let r6 ← lit ' ' r5
  let (d, r7) ← takeDigits 2 r6
  let r8 ← lit ':' r7
  let (e, r9) ← takeDigits 2 r8
  let r10 ← lit ':' r9
  let (f, r11) ← takeDigits 2 r10
  some (a ++ ['-'] ++ b ++ ['-'] ++ c ++ [' '] ++ d ++ [':'] ++ e ++ [':'] ++ f, r11)

/-- The capture groups of the standard-format pattern
    `(\d{4}-\d{2}-\d{2} \d{2}:\d{2}:\d{2}) (\w+)\s+(.*)`. -/
structure StdGroups where
  date : String
  level : String
  message : String
deriving DecidableEq, Repr

/-- Model of `re.match` for the standard pattern.  The greedy pieces of this
    pattern admit no backtracking (a shorter `\w+`/`\s+` match always places a
    character of the same class where the following literal is required), so the
    match is computed deterministically by maximal munch.  `.*` stops at a
    newline; `re.match` only anchors the start, so trailing input is ignored. -/
def stdCapture (l : List Char) : Option StdGroups := do
  let (date, r1) ← stdDateScan l
  let r2 ← lit ' ' r1
  let (w, r3) := r2.span pyWord
  if w.isEmpty then none
  else
    let (s, r4) := r3.span pySpace
    if s.isEmpty then none
    else some ⟨⟨date⟩, ⟨w⟩, ⟨r4.takeWhile (fun c => c ≠ '\n')⟩⟩

/-- Model of `datetime.strptime` with format `%Y-%m-%d %H:%M:%S` on strings of the
    exact shape produced by the first capture group of the standard pattern (its
    only call site): field-range validation followed by conversion. -/
def strptimeYMD (s : String) : Option Int :=
  match s.toList with
  | [a, b, c, d, '-', e, f, '-', g, h, ' ', i, j, ':', k, l, ':', m, n] =>
    if ([a, b, c, d, e, f, g, h, i, j, k, l, m, n]).all Char.isDigit then
      mkTs (digitsVal [a, b, c, d]) (digitsVal [e, f]) (digitsVal [g, h])
        (digitsVal [i, j]) (digitsVal [k, l]) (digitsVal [m, n])
    else none
  | _ => none

/-- Translation of `parse_log_line` from `analyzer.py`.  `.ok none` is the Python `None`
    sentinel; `.error .valueError` is the uncaught `ValueError` that
    `datetime.strptime` raises on a regex-matching line whose date is not a
    valid calendar date. -/
def parse_log_line (line : String) : Except PyErr (Option LogEntry) :=
  match stdCapture line.toList with
  | none => .ok none
  | some g =>
    match strptimeYMD g.date with
    | some ts => .ok (some ⟨ts, g.level, g.message⟩)
    | none => .error .valueError

/-- The double-quote character (written by code point to keep the source free
    of quote characters outside string literals). -/
def quoteC : Char := Char.ofNat 34

/-- Capture groups of the combined-log patterns used by `parse_apache_log` and
    `parse_nginx_log` (groups 2-5; groups 1 and 6 are captured by the source
    patterns but never read, so they are not recorded). -/
structure CombinedGroups where
  date : String
  method : String
  path : String
  status : String
deriving DecidableEq, Repr

/-- One `\S+ ` unit of the combined-log patterns: a maximal nonempty run of
    non-whitespace followed by a literal space.  A shorter `\S+` match would
    place a non-space character where the space is required, so greedy matching
    with backtracking is equivalent to this deterministic maximal munch. -/
def tokSp (l : List Char) : Option (List Char) :=
  let (t, r) := l.span (fun c => !pySpace c)
  if t.isEmpty then none
  else
    match r with
    | ' ' :: r2 => some r2
    | _ => none

/-- The part of the combined-log patterns after the closing `]`:
    ` "(\S+) (\S+) \S+" (\d{3})` followed by ` \S+` (Apache) or ` (\d+)`
    (Nginx, `ng = true`).  The only backtracking the quoted part admits is in
    `\S+"`: the closing quote must be the last character of the maximal
    non-space run, since the pattern requires a space right after it; earlier
    quote positions inside the run are followed by a non-space character and
    fail.  Returns the captured method, path and status digits. -/
def tailReq (ng : Bool) (l : List Char) : Option (String × String × String) :=
  match l with
  | ' ' :: q :: r =>
    if q ≠ quoteC then none
    else
      let (m, r1) := r.span (fun c => !pySpace c)
      if m.isEmpty then none
      else
        match r1 with
        | ' ' :: r2 =>
          let (p, r3) := r2.span (fun c => !pySpace c)
          if p.isEmpty then none
          else
            match r3 with
            | ' ' :: r4 =>
              let (pr, r5) := r4.span (fun c => !pySpace c)
              if pr.length < 2 then none
              else if pr.getLast? ≠ some quoteC then none
              else
                match r5 with
                | ' ' :: d1 :: d2 :: d3 :: r7 =>
                  if d1.isDigit && d2.isDigit && d3.isDigit then
                    match r7 with
                    | ' ' :: r8 =>
                      if ng then
                        match r8 with
                        | e1 :: _ => if e1.isDigit then some (⟨m⟩, ⟨p⟩, ⟨[d1, d2, d3]⟩) else none
                        | [] => none
                      else
                        let (z, _) := r8.span (fun c => !pySpace c)
                        if z.isEmpty then none else some (⟨m⟩, ⟨p⟩, ⟨[d1, d2, d3]⟩)
                    | _ => none
                  else none
                | _ => none
            | _ => none
        | _ => none
  | _ => none

/-- Backtracking search for the lazy group `\[(.+?)\]` followed by `tailReq`:
    at each candidate `]` (preceded by at least one newline-free character) the
    continuation is tried; on failure the `]` is absorbed into the group and the
    scan continues, exactly as the regex engine extends a lazy quantifier. -/
def bracketScan (ng : Bool) (acc : List Char) : List Char → Option CombinedGroups
  | [] => none
  | c :: r =>
    if c = '\n' then none
    else if c = ']' ∧ ¬acc.isEmpty then
      match tailReq ng r with
      | some (m, p, st) => some ⟨⟨acc.reverse⟩, m, p, st⟩
      | none => bracketScan ng (c :: acc) r
    else bracketScan ng (c :: acc) r

/-- Model of `re.match` for the combined-log patterns
    `(\S+) \S+ \S+ \[(.+?)\] "(\S+) (\S+) \S+" (\d{3}) \S+` (Apache) and
    `(\S+) \S+ \S+ \[(.+?)\] "(\S+) (\S+) \S+" (\d{3}) (\d+)` (Nginx). -/
def combinedCapture (ng : Bool) (line : String) : Option CombinedGroups := do
  let r1 ← tokSp line.toList
  let r2 ← tokSp r1
  let r3 ← tokSp r2
  match r3 with
  | '[' :: r4 => bracketScan ng [] r4
  | _ => none

/-- Python `s.split(' ')[0]`: the prefix before the first space. -/
def firstSeg (s : String) : String :=
  ⟨s.toList.takeWhile (fun c => c ≠ ' ')⟩

/-- The HTTP-status-to-level mapping shared by both combined-log parsers. -/
def statusLevel (st : Nat) : String :=
  if 500 ≤ st then "ERROR" else if 400 ≤ st then "WARN" else "INFO"

/-- Month number of a `%b` abbreviated month name; `strptime` matches these
    case-insensitively. -/
def monthIdx (l : List Char) : Option Nat :=
  match l.map Char.toLower with
  | ['j', 'a', 'n'] => some 1
  | ['f', 'e', 'b'] => some 2
  | ['m', 'a', 'r'] => some 3
  | ['a', 'p', 'r'] => some 4
  | ['m', 'a', 'y'] => some 5
  | ['j', 'u', 'n'] => some 6
  | ['j', 'u', 'l'] => some 7
  | ['a', 'u', 'g'] => some 8
  | ['s', 'e', 'p'] => some 9
  | ['o', 'c', 't'] => some 10
  | ['n', 'o', 'v'] => some 11
  | ['d', 'e', 'c'] => some 12
  | _ => none

/-- Model of `datetime.strptime` with format `%d/%b/%Y:%H:%M:%S`: `%d`, `%H`, `%M`,
    `%S` match one or two digits, `%Y` one to four, `%b` an abbreviated month
    name; the whole string must be consumed, and the resulting fields are
    validated by the `datetime` constructor (`mkTs`). -/
def strptimeDBY (s : String) : Option Int :=
  let l := s.toList
  let (dd, r1) := l.span Char.isDigit
  if dd.isEmpty ∨ 2 < dd.length then none
  else
    match r1 with
    | '/' :: a :: b :: c :: r3 =>
      match monthIdx [a, b, c] with
      | none => none
      | some mo =>
        match r3 with
        | '/' :: r4 =>
          let (yy, r5) := r4.span Char.isDigit
          if yy.isEmpty ∨ 4 < yy.length then none
          else
            match r5 with
            | ':' :: r6 =>
              let (hh, r7) := r6.span Char.isDigit
              if hh.isEmpty ∨ 2 < hh.length then none
              else
                match r7 with
                | ':' :: r8 =>
                  let (mi, r9) := r8.span Char.isDigit
                  if mi.isEmpty ∨ 2 < mi.length then none
                  else
                    match r9 with
                    | ':' :: r10 =>
                      let (ss, r11) := r10.span Char.isDigit
                      if ss.isEmpty ∨ 2 < ss.length ∨ ¬r11.isEmpty then none
                      else
                        mkTs (digitsVal yy) mo (digitsVal dd) (digitsVal hh)
                          (digitsVal mi) (digitsVal ss)
                    | _ => none
                | _ => none
            | _ => none
        | _ => none
    | _ => none

/-- Translation of `parse_apache_log` from `patterns.py`.  The timezone offset inside the
    brackets is discarded (`split(' ')[0]`); an invalid date raises
    `ValueError` (modelled as `.error`). -/
def parse_apache_log (line : String) : Except PyErr (Option LogEntry) :=
  match combinedCapture false line with
  | none => .ok none
  | some g =>
    match strptimeDBY (firstSeg g.date) with
    | none => .error .valueError
    | some ts =>
      let st := digitsVal g.status.toList
      .ok (some ⟨ts, statusLevel st, g.method ++ " " ++ g.path ++ " - " ++ toString st⟩)

/-- Translation of `parse_nginx_log` from `patterns.py`; identical to the Apache parser except
    for the final `(\d+)` of the pattern. -/
def parse_nginx_log (line : String) : Except PyErr (Option LogEntry) :=
  match combinedCapture true line with
  | none => .ok none
  | some g =>
    match strptimeDBY (firstSeg g.date) with
    | none => .error .valueError
    | some ts =>
      let st := digitsVal g.status.toList
      .ok (some ⟨ts, statusLevel st, g.method ++ " " ++ g.path ++ " - " ++ toString st⟩)

/-- Syntax tree of a JSON value as accepted by the Python function `json.loads` (numbers
    are not evaluated: no verified property depends on their value). -/
inductive JsonVal where
  | jnull
  | jbool (b : Bool)
  | jnum
  | jstr (s : String)
  | jarr (xs : List JsonVal)
  | jobj (fields : List (String × JsonVal))

/-- JSON whitespace as skipped by `json.loads`. -/
def jWsChar (c : Char) : Bool :=
  c = ' ' || c = '\t' || c = '\n' || c = '\r'

/-- Drop leading JSON whitespace. -/
def skipWs : List Char → List Char
  | [] => []
  | c :: r => if jWsChar c then skipWs r else c :: r

/-- Value of a hexadecimal digit. -/
def hexVal (c : Char) : Option Nat :=
  if c.isDigit then some (c.toNat - 48)
  else if 'a' ≤ c ∧ c ≤ 'f' then some (c.toNat - 87)
  else if 'A' ≤ c ∧ c ≤ 'F' then some (c.toNat - 55)
  else none

/-- Scanner for the body of a JSON string (after the opening quote), in the
    default strict mode: unescaped control characters are rejected, the
    standard escapes and `\uXXXX` are decoded.  Returns the decoded characters
    and the input after the closing quote.  (Surrogate-pair recombination is
    not modelled; no verified property depends on astral characters.) -/
def scanString : List Char → Option (List Char × List Char)
  | [] => none
  | c :: r =>
    if c = quoteC then some ([], r)
    else if c = '\\' then
      match r with
      | [] => none
      | e :: r2 =>
        if e = quoteC || e = '\\' || e = '/' then
          (scanString r2).map (fun p => (e :: p.1, p.2))
        else if e = 'b' then (scanString r2).map (fun p => (Char.ofNat 8 :: p.1, p.2))
        else if e = 'f' then (scanString r2).map (fun p => (Char.ofNat 12 :: p.1, p.2))
        else if e = 'n' then (scanString r2).map (fun p => ('\n' :: p.1, p.2))
        else if e = 'r' then (scanString r2).map (fun p => ('\r' :: p.1, p.2))
        else if e = 't' then (scanString r2).map (fun p => ('\t' :: p.1, p.2))
        else if e = 'u' then
          match r2 with
          | h1 :: h2 :: h3 :: h4 :: r3 =>
            match hexVal h1, hexVal h2, hexVal h3, hexVal h4 with
            | some a, some b, some c2, some d =>
              (scanString r3).map (fun p => (Char.ofNat (4096 * a + 256 * b + 16 * c2 + d) :: p.1, p.2))
            | _, _, _, _ => none
          | _ => none
        else none
    else if c.toNat < 32 then none
    else (scanString r).map (fun p => (c :: p.1, p.2))

/-- The optional fraction and exponent parts of a JSON number (taken greedily,
    and only when complete, as the regex groups `(\.\d+)?([eE][-+]?\d+)?`). -/
def numTail (l : List Char) : List Char :=
  let l1 :=
    match l with
    | '.' :: r =>
      let (ds, r2) := r.span Char.isDigit
      if ds.isEmpty then l else r2
    | _ => l
  match l1 with
  | c :: r =>
    if c = 'e' || c = 'E' then
      match r with
      | s :: r2 =>
        if s = '+' || s = '-' then
          let (ds, r3) := r2.span Char.isDigit
          if ds.isEmpty then l1 else r3
        else
          let (ds, r3) := (s :: r2).span Char.isDigit
          if ds.isEmpty then l1 else r3
      | [] => l1
    else l1
  | [] => l1

/-- The integer part `0|[1-9]\d*` of a JSON number, then `numTail`. -/
def numCore (l : List Char) : Option (List Char) :=
  match l with
  | [] => none
  | c :: r =>
    if c = '0' then some (numTail r)
    else if c.isDigit then
      let (_, r2) := r.span Char.isDigit
      some (numTail r2)
    else none

/-- Match of the number regex of the `json` module at the current position. -/
def parseNum (l : List Char) : Option (List Char) :=
  match l with
  | '-' :: r => numCore r
  | _ => numCore l

/-- Characters of the constant `Infinity` accepted by `json.loads`. -/
def infChars : List Char :=
  ['I', 'n', 'f', 'i', 'n', 'i', 't', 'y']

mutual

/-- Recursive-descent model of the `json.loads` scanner for one JSON value,
    with fuel for termination (any fuel above the input length is enough, since
    every recursion consumes at least one character).  Mirrors the CPython
    scanner: strings, objects, arrays, the `null`/`true`/`false` literals, the
    number regex, and the `NaN`/`Infinity`/`-Infinity` constants. -/
def parseVal : Nat → List Char → Option (JsonVal × List Char)
  | 0, _ => none
  | fu + 1, l0 =>
    let l := skipWs l0
    if l.take 4 = ['n', 'u', 'l', 'l'] then some (.jnull, l.drop 4)
    else if l.take 4 = ['t', 'r', 'u', 'e'] then some (.jbool true, l.drop 4)
    else if l.take 5 = ['f', 'a', 'l', 's', 'e'] then some (.jbool false, l.drop 5)
    else if l.take 3 = ['N', 'a', 'N'] then some (.jnum, l.drop 3)
    else if l.take 8 = infChars then some (.jnum, l.drop 8)
    else
      match l with
      | [] => none
      | c :: r =>
        if c = quoteC then (scanString r).map (fun p => (.jstr ⟨p.1⟩, p.2))
        else if c = Char.ofNat 123 then
          match skipWs r with
          | [] => none
          | d :: r2 =>
            if d = Char.ofNat 125 then some (.jobj [], r2)
            else if d = quoteC then parseMembers fu [] r2
            else none
        else if c = '[' then
          match skipWs r with
          | ']' :: r2 => some (.jarr [], r2)
          | r1 => parseElems fu [] r1
        else
          match parseNum l with
          | some rest => some (.jnum, rest)
          | none =>
            if l.take 9 = '-' :: infChars then some (.jnum, l.drop 9) else none

/-- Members of a JSON object, positioned just after the opening quote of the
    next key. -/
def parseMembers : Nat → List (String × JsonVal) → List Char → Option (JsonVal × List Char)
  | 0, _, _ => none
  | fu + 1, acc, l => do
    let (k, r1) ← scanString l
    match skipWs r1 with
    | ':' :: r3 =>
      match parseVal fu r3 with
      | none => none
      | some (v, r4) =>
        match skipWs r4 with
        | c :: r6 =>
          if c = Char.ofNat 125 then some (.jobj (acc ++ [(⟨k⟩, v)]), r6)
          else if c = ',' then
            match skipWs r6 with
            | d :: r8 =>
              if d = quoteC then parseMembers fu (acc ++ [(⟨k⟩, v)]) r8 else none
            | [] => none
          else none
        | [] => none
    | _ => none

/-- Elements of a JSON array, positioned at the next value. -/
def parseElems : Nat → List JsonVal → List Char → Option (JsonVal × List Char)
  | 0, _, _ => none
  | fu + 1, acc, l =>
    match parseVal fu l with
    | none => none
    | some (v, r1) =>
      match skipWs r1 with
      | c :: r3 =>
        if c = ']' then some (.jarr (acc ++ [v]), r3)
        else if c = ',' then parseElems fu (acc ++ [v]) r3
        else none
      | [] => none

end

/-- Model of `json.loads`: parse one value and require only whitespace after
    it (`none` models a raised `JSONDecodeError`). -/
def jsonParse (line : String) : Option JsonVal :=
  match parseVal (line.length + 1) line.toList with
  | some (v, rest) => if (skipWs rest).isEmpty then some v else none
  | none => none

/-- Whether `json.loads` accepts the line. -/
def jsonValid (line : String) : Bool :=
  (jsonParse line).isSome

/-- Python `dict.get` on the fields of a parsed JSON object (`json.loads`
    keeps the last duplicate of a key, hence the left fold). -/
def objGet (fields : List (String × JsonVal)) (k : String) : Option JsonVal :=
  fields.foldl (fun acc p => if p.1 = k then some p.2 else acc) none

/-- String content of a JSON value used as a message.  The source stores the
    raw value; only the string case is distinguished here, since no verified
    property involves a non-string `message`/`msg` field. -/
def jstrD : JsonVal → String
  | .jstr s => s
  | _ => ""

/-- Model of `datetime.fromisoformat` on the common subset
    `YYYY-MM-DD[<sep>HH:MM[:SS]]` (no fractional seconds or offsets; no
    verified property depends on those forms).  `none` models `ValueError`. -/
def fromIso (s : String) : Option Int :=
  match s.toList with
  | a :: b :: c :: d :: '-' :: e :: f :: '-' :: g :: h :: rest =>
    if ([a, b, c, d, e, f, g, h]).all Char.isDigit then
      let y := digitsVal [a, b, c, d]
      let mo := digitsVal [e, f]
      let dd := digitsVal [g, h]
      match rest with
      | [] => mkTs y mo dd 0 0 0
      | _ :: i :: j :: ':' :: k :: l :: tl =>
        if ([i, j, k, l]).all Char.isDigit then
          match tl with
          | [] => mkTs y mo dd (digitsVal [i, j]) (digitsVal [k, l]) 0
          | [':', m, n] =>
            if m.isDigit && n.isDigit then
              mkTs y mo dd (digitsVal [i, j]) (digitsVal [k, l]) (digitsVal [m, n])
            else none
          | _ => none
        else none
      | _ => none
    else none
  | _ => none

/-- The message of a JSON log record:
    `data.get` of `message`, falling back to `msg`, then to the empty string. -/
def jmsg (fields : List (String × JsonVal)) : String :=
  match objGet fields "message" with
  | some v => jstrD v
  | none =>
    match objGet fields "msg" with
    | some v => jstrD v
    | none => ""

/-- Translation of `parse_json_log` from `patterns.py`.  The `try` block catches only
    `JSONDecodeError` and `ValueError`, so `.get` on a non-object value raises
    an uncaught `AttributeError`, `fromisoformat` of a non-string raises
    `TypeError`, and `.upper()` of a non-string level raises `AttributeError`. -/
def parse_json_log (line : String) : Except PyErr (Option LogEntry) :=
  match jsonParse line with
  | none => .ok none
  | some (.jobj fields) =>
    match objGet fields "timestamp" with
    | some (.jstr s) =>
      match fromIso s with
      | none => .ok none
      | some ts =>
        match objGet fields "level" with
        | some (.jstr lv) => .ok (some ⟨ts, lv.toUpper, jmsg fields⟩)
        | some _ => .error .attributeError
        | none => .ok (some ⟨ts, "INFO", jmsg fields⟩)
    | some _ => .error .typeError
    | none => .ok none
  | some _ => .error .attributeError

/-- Matchability of `.+?"` (at least one newline-free character, then a
    quote); lazy matching only changes which match is chosen, not whether one
    exists, and `re.match` ignores trailing input. -/
def cmGoQ : List Char → Bool
  | [] => false
  | c :: r => c = quoteC || (c ≠ '\n' && cmGoQ r)

/-- Matchability of `".+?"` starting right after a space. -/
def cmTail : List Char → Bool
  | ' ' :: q :: c :: r => q = quoteC && (c ≠ '\n' && cmGoQ r)
  | _ => false

/-- Scan of the lazy group `.+?\]` of the detection pattern followed by
    ` ".+?"`, with the same candidate-extension backtracking as `bracketScan`. -/
def cmGo : List Char → Bool
  | [] => false
  | c :: r => (c = ']' && cmTail r) || (c ≠ '\n' && cmGo r)

/-- The bracketed part `\[.+?\] ".+?"` of the detection pattern, positioned
    after the opening bracket. -/
def cmBracket : List Char → Bool
  | [] => false
  | c :: r => c ≠ '\n' && cmGo r

/-- Model of `re.match` with pattern `\S+ \S+ \S+ \[.+?\] ".+?"` used by the
    format detector. -/
def combinedShape (line : String) : Bool :=
  match tokSp line.toList with
  | none => false
  | some r1 =>
    match tokSp r1 with
    | none => false
    | some r2 =>
      match tokSp r2 with
      | none => false
      | some r3 =>
        match r3 with
        | '[' :: r4 => cmBracket r4
        | _ => false

/-- Model of `re.match` with pattern `\d{4}-\d{2}-\d{2} \d{2}:\d{2}:\d{2}`. -/
def dateShapeHead (line : String) : Bool :=
  (stdDateScan line.toList).isSome

/-- Whether `pat` is a prefix of the list. -/
def startsWithL : List Char → List Char → Bool
  | _, [] => true
  | [], _ :: _ => false
  | a :: r, b :: s => a = b && startsWithL r s

/-- Whether `pat` occurs somewhere in the list. -/
def infixIn (pat : List Char) : List Char → Bool
  | [] => pat.isEmpty
  | c :: r => startsWithL (c :: r) pat || infixIn pat r

/-- The Python substring test `pat in s`. -/
def containsSub (s pat : String) : Bool :=
  infixIn pat.toList s.toList

/-- The literal `"Mozilla` of the user-agent sniff. -/
def mozStr : String := "\"Mozilla"

/-- The literal `"curl` of the user-agent sniff. -/
def curlStr : String := "\"curl"

/-- Translation of `detect_log_format` from `patterns.py`. -/
def detect_log_format (line : String) : String :=
  if jsonValid line then "json"
  else if combinedShape line then
    (if containsSub line mozStr || containsSub line curlStr then "nginx" else "apache")
  else if dateShapeHead line then "standard"
  else "unknown"

/-- The `while` loop shrinking the spike window: pop from the front while the
    front timestamp is more than `ws` seconds older than `t`. -/
def popOld (t ws : Int) : List Int → List Int
  | [] => []
  | x :: r => if ws < t - x then popOld t ws r else x :: r

/-- One iteration of the `find_error_spikes` loop on the state
    (window, spikes). -/
def spikeStep (wm th : Int) (acc : List Int × List (Int × Nat)) (e : LogEntry) :
    List Int × List (Int × Nat) :=
  if e.level = "ERROR" then
    let w := popOld e.timestamp (wm * 60) (acc.1 ++ [e.timestamp])
    if th ≤ (w.length : Int) then (w, acc.2 ++ [(e.timestamp, w.length)]) else (w, acc.2)
  else acc

/-- Translation of `find_error_spikes` from `analyzer.py`. -/
def find_error_spikes (logs : List LogEntry) (window_minutes threshold : Int) :
    List (Int × Nat) :=
  (logs.foldl (spikeStep window_minutes threshold) ([], [])).2

/-- Model of `re.sub` replacing each `\d+` run by `N`, tracking whether the previous character
    was a digit so that each maximal digit run produces one `N`. -/
def normAux (prevDigit : Bool) : List Char → List Char
  | [] => []
  | c :: r =>
    if c.isDigit then
      (if prevDigit then normAux true r else 'N' :: normAux true r)
    else c :: normAux false r

/-- Message normalization of the pattern aggregator. -/
def normalize (s : String) : String :=
  ⟨normAux false s.toList⟩

/-- Python `dict` increment `d[k] = d.get(k, 0) + 1` on an insertion-ordered
    association list. -/
def incr : List (String × Nat) → String → List (String × Nat)
  | [], k => [(k, 1)]
  | (a, n) :: r, k => if a = k then (a, n + 1) :: r else (a, n) :: incr r k

/-- The `error_counts` dictionary of `find_repeated_patterns`. -/
def errorCounts (logs : List LogEntry) : List (String × Nat) :=
  logs.foldl (fun acc e => if e.level = "ERROR" then incr acc (normalize e.message) else acc) []

/-- Translation of `find_repeated_patterns` from `analyzer.py` (the result dictionary as an
    insertion-ordered association list). -/
def find_repeated_patterns (logs : List LogEntry) (min_occurrences : Nat) :
    List (String × Nat) :=
  (errorCounts logs).filter (fun kv => decide (min_occurrences ≤ kv.2))

/-- Association-list lookup (first match; the lists built by `incr` never
    duplicate a key). -/
def alGet : List (String × Nat) → String → Option Nat
  | [], _ => none
  | (a, n) :: r, k => if a = k then some n else alGet r k

/-- Result record of `analyze_time_range`. -/
structure RangeSummary where
  total : Nat
  errors : Nat
  warnings : Nat
deriving DecidableEq, Repr

/-- Translation of `analyze_time_range` from `analyzer.py`: the two monotone pointers are the
    length of the maximal prefix with `timestamp < start` (the `left` loop) and
    from there the maximal run with `timestamp ≤ end` (the `right` loop),
    i.e. `dropWhile` then `takeWhile`. -/
def analyze_time_range (logs : List LogEntry) (start stop : Int) : RangeSummary :=
  let range_logs :=
    (logs.dropWhile (fun l => decide (l.timestamp < start))).takeWhile
      (fun l => decide (l.timestamp ≤ stop))
  ⟨range_logs.length,
    (range_logs.filter (fun l => l.level == "ERROR")).length,
    (range_logs.filter (fun l => l.level == "WARN")).length⟩

/-- Concatenation of the lists produced per element (the repeated
    `anomalies.append` calls of the per-bucket loop). -/
def listFlat {α β : Type} (f : α → List β) : List α → List β
  | [] => []
  | a :: r => f a ++ listFlat f r

/-- Minute truncation of a timestamp (`strftime` with format `%Y-%m-%d %H:%M` keys
    distinct minutes distinctly, so the key is modelled by the floored minute
    number). -/
def bucketKey (t : Int) : Int :=
  Int.fdiv t 60

/-- Increment of one minute bucket `(key, total, errors)`, inserting new keys
    at the end as a Python dict does. -/
def bumpBucket : List (Int × Nat × Nat) → Int → Bool → List (Int × Nat × Nat)
  | [], k, er => [(k, 1, if er then 1 else 0)]
  | (a, n, m) :: r, k, er =>
    if a = k then (a, n + 1, if er then m + 1 else m) :: r
    else (a, n, m) :: bumpBucket r k er

/-- The `minute_buckets` dictionary of `detect_anomalies`, in insertion order. -/
def minuteBuckets (logs : List LogEntry) : List (Int × Nat × Nat) :=
  logs.foldl (fun acc e => bumpBucket acc (bucketKey e.timestamp) (e.level == "ERROR")) []

/-- Error rate of one bucket: `errors / total if total > 0 else 0`. -/
def bucketRate (b : Int × Nat × Nat) : ℚ :=
  if 0 < b.2.1 then (b.2.2 : ℚ) / (b.2.1 : ℚ) else 0

/-- Unweighted mean of a list of rationals. -/
def meanQ (l : List ℚ) : ℚ :=
  l.sum / (l.length : ℚ)

/-- Population variance of a list of rationals. -/
def varQ (l : List ℚ) : ℚ :=
  ((l.map (fun r => (r - meanQ l) ^ 2)).sum) / (l.length : ℚ)

/-- The per-bucket error rates of `detect_anomalies`. -/
def rateList (bs : List (Int × Nat × Nat)) : List ℚ :=
  bs.map bucketRate

/-- The per-bucket total counts of `detect_anomalies`, as rationals. -/
def volListQ (bs : List (Int × Nat × Nat)) : List ℚ :=
  bs.map (fun b => (b.2.1 : ℚ))

/-- Population variance of the per-bucket error rates (the square of the
    `std_dev` of the detector; `std_dev > 0` iff this is positive). -/
def rateVariance (logs : List LogEntry) : ℚ :=
  varQ (rateList (minuteBuckets logs))

/-- Population variance of the per-bucket totals (the square of `vol_std`). -/
def volVariance (logs : List LogEntry) : ℚ :=
  varQ (volListQ (minuteBuckets logs))

/-- Exact encoding of `d > s * (v ** 0.5)` for nonnegative `s` and `v` (the
    sensitivities and variances of the detector): equivalent to `0 < d` together
    with `s^2 * v < d^2`. -/
def sqrtGt (d s v : ℚ) : Bool :=
  decide (0 < d) && decide (s ^ 2 * v < d ^ 2)

/-- Anomaly records of `detect_anomalies`.  The percentage/format-string
    fields are modelled by their numeric values. -/
inductive Anomaly where
  | high_error_rate (time : Int) (error_rate expected_rate : ℚ) (severity : String)
  | volume_spike (time : Int) (count : Nat) (expected_count : ℚ) (severity : String)
  | time_gap (time : Int) (gap_seconds : Int) (severity : String)
deriving DecidableEq, Repr

/-- The `type` field of an anomaly record. -/
def Anomaly.atype : Anomaly → String
  | .high_error_rate _ _ _ _ => "high_error_rate"
  | .volume_spike _ _ _ _ => "volume_spike"
  | .time_gap _ _ _ => "time_gap"

/-- One iteration of the per-bucket loop of `detect_anomalies`: a
    `high_error_rate` check using the rate statistics, then a `volume_spike`
    check whose statistics the source recomputes (identically) on every
    iteration. -/
def bucketCheck (bs : List (Int × Nat × Nat)) (sensitivity : ℚ) (b : Int × Nat × Nat) :
    List Anomaly :=
  (if decide (0 < varQ (rateList bs)) &&
      sqrtGt (bucketRate b - meanQ (rateList bs)) sensitivity (varQ (rateList bs)) then
    [.high_error_rate b.1 (bucketRate b) (meanQ (rateList bs))
      (if decide ((4 : ℚ) / 5 < bucketRate b) then "HIGH" else "MEDIUM")]
  else []) ++
  (if decide (0 < varQ (volListQ bs)) &&
      sqrtGt ((b.2.1 : ℚ) - meanQ (volListQ bs)) sensitivity (varQ (volListQ bs)) then
    [.volume_spike b.1 b.2.1 (meanQ (volListQ bs)) "MEDIUM"]
  else [])

/-- The per-bucket loop of `detect_anomalies`. -/
def bucketAnoms (bs : List (Int × Nat × Nat)) (sensitivity : ℚ) : List Anomaly :=
  listFlat (bucketCheck bs sensitivity) bs

/-- The consecutive-gap scan of `detect_anomalies` (gap greater than 300
    seconds). -/
def timeGaps (logs : List LogEntry) : List Anomaly :=
  (logs.zip logs.tail).filterMap (fun p =>
    if decide (300 < p.2.timestamp - p.1.timestamp) then
      some (.time_gap p.2.timestamp (p.2.timestamp - p.1.timestamp) "LOW")
    else none)

/-- Translation of `detect_anomalies` from `patterns.py`. -/
def detect_anomalies (logs : List LogEntry) (sensitivity : ℚ) : List Anomaly :=
  if logs.length < 5 then []
  else
    let bs := minuteBuckets logs
    if bs.isEmpty then []
    else bucketAnoms bs sensitivity ++ timeGaps logs

/-- Statement-by-statement translation of `find_error_spikes` that also
    returns the final value of its `logs` parameter: no statement of the source
    rebinds or mutates it, so the translation returns the input list itself. -/
def find_error_spikes_st (logs : List LogEntry) (wm th : Int) :
    List (Int × Nat) × List LogEntry :=
  (find_error_spikes logs wm th, logs)

/-- Frame-tracking translation of `find_repeated_patterns` (see
    `find_error_spikes_st`). -/
def find_repeated_patterns_st (logs : List LogEntry) (m : Nat) :
    List (String × Nat) × List LogEntry :=
  (find_repeated_patterns logs m, logs)

/-- Frame-tracking translation of `analyze_time_range`; `logs[left:right]` is
    a copy, so the input list is left untouched. -/
def analyze_time_range_st (logs : List LogEntry) (start stop : Int) :
    RangeSummary × List LogEntry :=
  (analyze_time_range logs start stop, logs)

/-- Frame-tracking translation of `detect_anomalies` (see
    `find_error_spikes_st`). -/
def detect_anomalies_st (logs : List LogEntry) (s : ℚ) :
    List Anomaly × List LogEntry :=
  (detect_anomalies logs s, logs)

/-- A field-by-field copy of a record; the passes read only the three fields,
    so they cannot distinguish a record from its copy. -/
def copyEntry (e : LogEntry) : LogEntry :=
  ⟨e.timestamp, e.level, e.message⟩

/-- The spike-detector step as worded by the specification: push the
    timestamp, drop from the front of the window while the front is more than
    `window_minutes*60` seconds older than the current timestamp, and emit a
    spike when the window size reaches the threshold. -/
def spikeSpecStep (wm th : Int) (acc : List Int × List (Int × Nat)) (e : LogEntry) :
    List Int × List (Int × Nat) :=
  if e.level = "ERROR" then
    let w := (acc.1 ++ [e.timestamp]).dropWhile (fun x => decide (wm * 60 < e.timestamp - x))
    if th ≤ (w.length : Int) then (w, acc.2 ++ [(e.timestamp, w.length)]) else (w, acc.2)
  else acc

/-- The spike detector as worded by the specification. -/
def spikeSpec (logs : List LogEntry) (wm th : Int) : List (Int × Nat) :=
  (logs.foldl (spikeSpecStep wm th) ([], [])).2

/-- Number of ERROR records whose normalized message is `k`. -/
def countNorm (logs : List LogEntry) (k : String) : Nat :=
  (logs.filter (fun e => e.level == "ERROR" && normalize e.message == k)).length

/-- Membership of a record in the inclusive time range `[start, stop]`. -/
def inRange (start stop : Int) (l : LogEntry) : Bool :=
  decide (start ≤ l.timestamp ∧ l.timestamp ≤ stop)

/-! Helper lemmas shared by the claim theorems. -/

theorem mem_listFlat {α β : Type} (f : α → List β) (b : β) :
    ∀ l : List α, b ∈ listFlat f l ↔ ∃ a, a ∈ l ∧ b ∈ f a := by
  intro l
  induction l with
  | nil => simp [listFlat]
  | cons x r ih =>
    simp only [listFlat, List.mem_append, ih, List.mem_cons]
    constructor
    · rintro (hb | ⟨a, ha, hb⟩)
      · exact ⟨x, Or.inl rfl, hb⟩
      · exact ⟨a, Or.inr ha, hb⟩
    · rintro ⟨a, ha | ha, hb⟩
      · exact Or.inl (ha ▸ hb)
      · exact Or.inr ⟨a, ha, hb⟩

/-! ## C1 -/

/-- Claim C1: the claim that all four parsers return a record or the `None` sentinel
    and never raise is violated by the code: a regex-matching standard or
    combined line with an invalid calendar date reaches `datetime.strptime`,
    which raises `ValueError`, and a line holding a valid JSON value that is
    not an object reaches `.get` on a non-dict, which raises `AttributeError`;
    neither exception is caught. -/
theorem c1_parser_exceptions :
    parse_log_line "2024-13-45 10:00:00 ERROR boom" = .error .valueError ∧
    parse_json_log "5" = .error .attributeError ∧
    parse_apache_log "1.2.3.4 - - [99/Jan/2024:10:00:00 +0000] \"GET / HTTP/1.1\" 200 77" =
      .error .valueError ∧
    parse_nginx_log "1.2.3.4 - - [15/Foo/2024:10:00:00 +0000] \"GET / HTTP/1.1\" 200 77" =
      .error .valueError :=
  ⟨rfl, rfl, rfl, rfl⟩

/-! ## C2 -/

/-- Claim C2 (counterexample): the line below is of the claimed shape
    `YYYY-MM-DD HH:MM:SS <LEVEL> <message>` (the pattern matches, with the
    displayed capture groups), yet the parser neither returns a record nor the
    no-record sentinel: it raises `ValueError`, because month 13 is not a valid
    calendar date. -/
theorem c2_counterexample :
    stdCapture ("2024-13-45 10:00:00 ERROR boom").toList =
      some ⟨"2024-13-45 10:00:00", "ERROR", "boom"⟩ ∧
    parse_log_line "2024-13-45 10:00:00 ERROR boom" = .error .valueError :=
  ⟨rfl, rfl⟩

/-- Claim C2 (amended): for every line matching the standard pattern whose date-time
    part is additionally a valid calendar date-time, the parser returns a
    record whose level and message are exactly the captured groups; for every
    line not matching the pattern it returns the no-record sentinel.  (Lines
    matching the pattern with an invalid date-time raise `ValueError` instead —
    see the counterexample.) -/
theorem c2_standard_parsing :
    (∀ (line : String) (g : StdGroups) (ts : Int),
        stdCapture line.toList = some g → strptimeYMD g.date = some ts →
        parse_log_line line = .ok (some ⟨ts, g.level, g.message⟩)) ∧
    (∀ line : String, stdCapture line.toList = none → parse_log_line line = .ok none) := by
  constructor
  · intro line g ts hg hts
    simp only [String.toList] at hg
    simp [parse_log_line, hg, hts]
  · intro line hg
    simp only [String.toList] at hg
    simp [parse_log_line, hg]

/-- Claim C2 (witness): the amended theorem applied to a well-formed line and to an
    unparseable line. -/
theorem c2_witness :
    parse_log_line "2024-01-15 10:23:45 ERROR Boom" =
      .ok (some ⟨63840911025, "ERROR", "Boom"⟩) ∧
    parse_log_line "this is not a log line" = .ok none :=
  ⟨c2_standard_parsing.1 "2024-01-15 10:23:45 ERROR Boom"
      ⟨"2024-01-15 10:23:45", "ERROR", "Boom"⟩ 63840911025 (by decide) (by decide),
    c2_standard_parsing.2 "this is not a log line" (by decide)⟩

/-! ## C5 -/

/-- Claim C5: the format detector returns `json` for any line accepted by the JSON
    parser; otherwise `nginx` for a combined-log-shaped line containing the
    substring `"Mozilla` or `"curl` and `apache` for other combined-log-shaped
    lines; otherwise `standard` for a line starting with
    `YYYY-MM-DD HH:MM:SS`; and `unknown` in all remaining cases. -/
theorem c5_format_detector :
    (∀ line : String, jsonValid line = true → detect_log_format line = "json") ∧
    (∀ line : String, jsonValid line = false → combinedShape line = true →
      (containsSub line mozStr || containsSub line curlStr) = true →
      detect_log_format line = "nginx") ∧
    (∀ line : String, jsonValid line = false → combinedShape line = true →
      (containsSub line mozStr || containsSub line curlStr) = false →
      detect_log_format line = "apache") ∧
    (∀ line : String, jsonValid line = false → combinedShape line = false →
      dateShapeHead line = true → detect_log_format line = "standard") ∧
    (∀ line : String, jsonValid line = false → combinedShape line = false →
      dateShapeHead line = false → detect_log_format line = "unknown") := by
  refine ⟨?_, ?_, ?_, ?_, ?_⟩ <;>
    intro line h1 <;>
    simp [detect_log_format, h1]
  · intro h2 h3
    simp [h2, h3]
  · intro h2 h3
    simp [h2, h3]
  · intro h2 h3
    simp [h2, h3]
  · intro h2 h3
    simp [h2, h3]

/-- Claim C5 (witness): the detector characterization applied to one concrete line
    of each format: a JSON object line, a combined line with a `"Mozilla`
    user agent, a combined line without one, a standard line, and free text. -/
theorem c5_witness :
    detect_log_format "\x7b\"timestamp\": \"2024-01-15T10:23:45\", \"level\": \"ERROR\"\x7d" = "json" ∧
    detect_log_format "192.168.1.1 - - [15/Jan/2024:10:23:45 +0000] \"GET /api/users HTTP/1.1\" 500 0 \"-\" \"Mozilla/5.0\"" = "nginx" ∧
    detect_log_format "127.0.0.1 - - [15/Jan/2024:10:23:45 +0000] \"GET /index.html HTTP/1.1\" 200 1234" = "apache" ∧
    detect_log_format "2024-01-15 10:23:45 ERROR Connection timeout" = "standard" ∧
    detect_log_format "hello world" = "unknown" :=
  ⟨c5_format_detector.1 _ (by decide),
    c5_format_detector.2.1 _ (by decide) (by decide) (by decide),
    c5_format_detector.2.2.1 _ (by decide) (by decide) (by decide),
    c5_format_detector.2.2.2.1 _ (by decide) (by decide) (by decide),
    c5_format_detector.2.2.2.2 _ (by decide) (by decide) (by decide)⟩

/-! ## C6 -/

/-- Claim C6: for every combined-log line accepted by the Apache or Nginx parser,
    the timestamp is parsed from the bracketed group with everything from the
    first space on (the timezone offset) discarded, the level is the
    status-to-level mapping (≥500 ERROR, 400-499 WARN, otherwise INFO), and the
    message is `<METHOD> <path> - <status>`; the two parsers produce results of
    this identical shape.  Stated as: capture plus timestamp parse determine
    the returned record (forward), and every accepted line arises this way
    (inverse), for both parsers. -/
theorem c6_combined_parsers :
    (∀ (line : String) (g : CombinedGroups) (ts : Int),
        combinedCapture false line = some g → strptimeDBY (firstSeg g.date) = some ts →
        parse_apache_log line = .ok (some ⟨ts, statusLevel (digitsVal g.status.toList),
          g.method ++ " " ++ g.path ++ " - " ++ toString (digitsVal g.status.toList)⟩)) ∧
    (∀ (line : String) (e : LogEntry), parse_apache_log line = .ok (some e) →
      ∃ g : CombinedGroups, combinedCapture false line = some g ∧
        strptimeDBY (firstSeg g.date) = some e.timestamp ∧
        e.level = statusLevel (digitsVal g.status.toList) ∧
        e.message = g.method ++ " " ++ g.path ++ " - " ++ toString (digitsVal g.status.toList)) ∧
    (∀ (line : String) (g : CombinedGroups) (ts : Int),
        combinedCapture true line = some g → strptimeDBY (firstSeg g.date) = some ts →
        parse_nginx_log line = .ok (some ⟨ts, statusLevel (digitsVal g.status.toList),
          g.method ++ " " ++ g.path ++ " - " ++ toString (digitsVal g.status.toList)⟩)) ∧
    (∀ (line : String) (e : LogEntry), parse_nginx_log line = .ok (some e) →
      ∃ g : CombinedGroups, combinedCapture true line = some g ∧
        strptimeDBY (firstSeg g.date) = some e.timestamp ∧
        e.level = statusLevel (digitsVal g.status.toList) ∧
        e.message = g.method ++ " " ++ g.path ++ " - " ++ toString (digitsVal g.status.toList)) := by
  refine ⟨?_, ?_, ?_, ?_⟩
  · intro line g ts hg hts
    simp [parse_apache_log, hg, hts]
  · intro line e he
    rcases hc : combinedCapture false line with _ | g
    · simp [parse_apache_log, hc] at he
    · rcases ht : strptimeDBY (firstSeg g.date) with _ | ts
      · simp [parse_apache_log, hc, ht] at he
      · simp only [parse_apache_log, hc, ht, Except.ok.injEq, Option.some.injEq] at he
        subst he
        exact ⟨g, rfl, ht, rfl, rfl⟩
  · intro line g ts hg hts
    simp [parse_nginx_log, hg, hts]
  · intro line e he
    rcases hc : combinedCapture true line with _ | g
    · simp [parse_nginx_log, hc] at he
    · rcases ht : strptimeDBY (firstSeg g.date) with _ | ts
      · simp [parse_nginx_log, hc, ht] at he
      · simp only [parse_nginx_log, hc, ht, Except.ok.injEq, Option.some.injEq] at he
        subst he
        exact ⟨g, rfl, ht, rfl, rfl⟩

/-- Claim C6 (witness): the forward direction applied to one concrete Apache line
    (status 200, INFO) and one concrete Nginx line (status 500, ERROR). -/
theorem c6_witness :
    parse_apache_log "127.0.0.1 - - [15/Jan/2024:10:23:45 +0000] \"GET /index.html HTTP/1.1\" 200 1234" =
      .ok (some ⟨63840911025, "INFO", "GET /index.html - 200"⟩) ∧
    parse_nginx_log "192.168.1.1 - - [15/Jan/2024:10:23:45 +0000] \"GET /api/users HTTP/1.1\" 500 0 \"-\" \"Mozilla/5.0\"" =
      .ok (some ⟨63840911025, "ERROR", "GET /api/users - 500"⟩) :=
  ⟨c6_combined_parsers.1 _ ⟨"15/Jan/2024:10:23:45 +0000", "GET", "/index.html", "200"⟩
      63840911025 (by decide) (by decide),
    c6_combined_parsers.2.2.1 _ ⟨"15/Jan/2024:10:23:45 +0000", "GET", "/api/users", "500"⟩
      63840911025 (by decide) (by decide)⟩

/-! ## C9 -/

/-- Claim C9: every analytical pass is a pure function of its arguments: the
    statement-by-statement frame-tracking translations return the input list
    unchanged alongside the pass result (no pass mutates its input), the passes
    cannot distinguish a record list from a field-by-field copy of it (they
    depend only on field values), and — the translations being Lean functions —
    two calls with equal arguments yield equal results. -/
theorem c9_passes_pure :
    ∀ (logs : List LogEntry) (wm th : Int) (m : Nat) (sq : ℚ) (a b : Int),
    find_error_spikes_st logs wm th = (find_error_spikes logs wm th, logs) ∧
    find_repeated_patterns_st logs m = (find_repeated_patterns logs m, logs) ∧
    analyze_time_range_st logs a b = (analyze_time_range logs a b, logs) ∧
    detect_anomalies_st logs sq = (detect_anomalies logs sq, logs) ∧
    find_error_spikes (logs.map copyEntry) wm th = find_error_spikes logs wm th ∧
    find_repeated_patterns (logs.map copyEntry) m = find_repeated_patterns logs m ∧
    analyze_time_range (logs.map copyEntry) a b = analyze_time_range logs a b ∧
    detect_anomalies (logs.map copyEntry) sq = detect_anomalies logs sq := by
  intro logs wm th m sq a b
  have hcopy : logs.map copyEntry = logs := by
    have : copyEntry = id := by
      funext e
      cases e
      rfl
    rw [this, List.map_id]
  rw [hcopy]
  exact ⟨rfl, rfl, rfl, rfl, rfl, rfl, rfl, rfl⟩

/-! ## C3 -/

theorem popOld_eq_dropWhile (t ws : Int) :
    ∀ l : List Int, popOld t ws l = l.dropWhile (fun x => decide (ws < t - x)) := by
  intro l
  induction l with
  | nil => rfl
  | cons x r ih =>
    by_cases h : ws < t - x
    · simp [popOld, h, ih]
    · simp [popOld, h]

theorem spikeStep_eq_specStep (wm th : Int) : spikeStep wm th = spikeSpecStep wm th := by
  funext acc e
  simp [spikeStep, spikeSpecStep, popOld_eq_dropWhile]

/-- Claim C3: the spike detector processes ERROR records in order, pushing each
    timestamp, popping from the front while the front timestamp is more than
    `window_minutes*60` seconds older than the current one, and emitting
    `(current_timestamp, queue_size)` whenever the queue size reaches the
    threshold (the equality with `spikeSpec`, the spec-worded algorithm);
    consequently three ERROR records within one second with window 5 and
    threshold 3 yield at least one spike, and three ERROR records spaced one
    hour apart yield none. -/
theorem c3_spike_detector :
    (∀ (logs : List LogEntry) (wm th : Int),
      find_error_spikes logs wm th = spikeSpec logs wm th) ∧
    (∀ (t1 t2 t3 : Int) (m1 m2 m3 : String), t1 ≤ t2 → t2 ≤ t3 → t3 - t1 ≤ 1 →
      1 ≤ (find_error_spikes
        [⟨t1, "ERROR", m1⟩, ⟨t2, "ERROR", m2⟩, ⟨t3, "ERROR", m3⟩] 5 3).length) ∧
    (∀ (t : Int) (m1 m2 m3 : String),
      find_error_spikes
        [⟨t, "ERROR", m1⟩, ⟨t + 3600, "ERROR", m2⟩, ⟨t + 7200, "ERROR", m3⟩] 5 3 = []) := by
  refine ⟨?_, ?_, ?_⟩
  · intro logs wm th
    unfold find_error_spikes spikeSpec
    rw [spikeStep_eq_specStep]
  · intro t1 t2 t3 m1 m2 m3 h12 h23 h31
    have hB : ¬ ((300 : Int) < t2 - t1) := by omega
    have hC : ¬ ((300 : Int) < t3 - t1) := by omega
    simp [find_error_spikes, spikeStep, popOld, hB, hC]
  · intro t m1 m2 m3
    simp [find_error_spikes, spikeStep, popOld, add_sub_add_left_eq_sub]

/-- Claim C3 (witness): the scenario clauses applied at concrete timestamps 0, 0, 1
    (within one second) and 0, 3600, 7200 (one hour apart). -/
theorem c3_witness :
    1 ≤ (find_error_spikes
      [⟨0, "ERROR", "a"⟩, ⟨0, "ERROR", "b"⟩, ⟨1, "ERROR", "c"⟩] 5 3).length ∧
    find_error_spikes
      [⟨0, "ERROR", "a"⟩, ⟨0 + 3600, "ERROR", "b"⟩, ⟨0 + 7200, "ERROR", "c"⟩] 5 3 = [] :=
  ⟨c3_spike_detector.2.1 0 0 1 "a" "b" "c" (by decide) (by decide) (by decide),
    c3_spike_detector.2.2 0 "a" "b" "c"⟩

/-! ## C4 -/

theorem timeGaps_atype (logs : List LogEntry) :
    ∀ a ∈ timeGaps logs, a.atype = "time_gap" := by
  intro a ha
  simp only [timeGaps, List.mem_filterMap] at ha
  rcases ha with ⟨p, -, hp⟩
  split at hp
  · rw [Option.some.injEq] at hp
    rw [← hp]
    rfl
  · exact absurd hp (by simp)

theorem mem_bucketCheck (bs : List (Int × Nat × Nat)) (s : ℚ) (b : Int × Nat × Nat)
    (a : Anomaly) (ha : a ∈ bucketCheck bs s b) :
    (0 < varQ (rateList bs) ∧ a.atype = "high_error_rate") ∨
    (0 < varQ (volListQ bs) ∧ a.atype = "volume_spike") := by
  simp only [bucketCheck] at ha
  rcases List.mem_append.1 ha with h | h
  · left
    by_cases c1 : (decide (0 < varQ (rateList bs)) &&
        sqrtGt (bucketRate b - meanQ (rateList bs)) s (varQ (rateList bs))) = true
    · rw [if_pos c1] at h
      rw [Bool.and_eq_true] at c1
      rcases c1 with ⟨cv, -⟩
      refine ⟨of_decide_eq_true cv, ?_⟩
      simp only [List.mem_singleton] at h
      rw [h]
      rfl
    · rw [if_neg c1] at h
      exact absurd h (List.not_mem_nil a)
  · right
    by_cases c2 : (decide (0 < varQ (volListQ bs)) &&
        sqrtGt ((b.2.1 : ℚ) - meanQ (volListQ bs)) s (varQ (volListQ bs))) = true
    · rw [if_pos c2] at h
      rw [Bool.and_eq_true] at c2
      rcases c2 with ⟨cv, -⟩
      refine ⟨of_decide_eq_true cv, ?_⟩
      simp only [List.mem_singleton] at h
      rw [h]
      rfl
    · rw [if_neg c2] at h
      exact absurd h (List.not_mem_nil a)

theorem mem_detect_anomalies (logs : List LogEntry) (s : ℚ) (a : Anomaly)
    (ha : a ∈ detect_anomalies logs s) :
    (0 < rateVariance logs ∧ a.atype = "high_error_rate") ∨
    (0 < volVariance logs ∧ a.atype = "volume_spike") ∨
    a.atype = "time_gap" := by
  simp only [detect_anomalies] at ha
  by_cases h5 : logs.length < 5
  · simp [h5] at ha
  · simp only [if_neg h5] at ha
    by_cases hbs : (minuteBuckets logs).isEmpty
    · simp [hbs] at ha
    · simp only [hbs, Bool.false_eq_true, if_false] at ha
      rcases List.mem_append.1 ha with hb | hg
      · rcases (mem_listFlat (bucketCheck (minuteBuckets logs) s) a (minuteBuckets logs)).1 hb
          with ⟨b, -, hmem⟩
        rcases mem_bucketCheck (minuteBuckets logs) s b a hmem with ⟨hv, hat⟩ | ⟨hv, hat⟩
        · exact Or.inl ⟨hv, hat⟩
        · exact Or.inr (Or.inl ⟨hv, hat⟩)
      · exact Or.inr (Or.inr (timeGaps_atype logs a hg))

/-- Claim C4: the anomaly detector returns an empty result on fewer than five
    records, and a zero standard deviation of the per-bucket error rates
    (respectively of the per-bucket totals) suppresses every
    `high_error_rate` (respectively `volume_spike`) anomaly for that call; the
    detector is a total function, so no division error can escape. -/
theorem c4_anomaly_guards :
    (∀ (logs : List LogEntry) (s : ℚ), logs.length < 5 → detect_anomalies logs s = []) ∧
    (∀ (logs : List LogEntry) (s : ℚ), rateVariance logs = 0 →
      (detect_anomalies logs s).all (fun a => a.atype != "high_error_rate") = true) ∧
    (∀ (logs : List LogEntry) (s : ℚ), volVariance logs = 0 →
      (detect_anomalies logs s).all (fun a => a.atype != "volume_spike") = true) := by
  refine ⟨?_, ?_, ?_⟩
  · intro logs s h
    simp [detect_anomalies, h]
  · intro logs s h
    rw [List.all_eq_true]
    intro a ha
    rcases mem_detect_anomalies logs s a ha with ⟨hv, -⟩ | ⟨-, hat⟩ | hat
    · rw [h] at hv
      exact absurd hv (lt_irrefl 0)
    · simp [hat]
    · simp [hat]
  · intro logs s h
    rw [List.all_eq_true]
    intro a ha
    rcases mem_detect_anomalies logs s a ha with ⟨-, hat⟩ | ⟨hv, -⟩ | hat
    · simp [hat]
    · rw [h] at hv
      exact absurd hv (lt_irrefl 0)
    · simp [hat]

/-- Claim C4 (witness): the guards applied to a four-record list and to a
    five-record single-minute list, whose rate and volume variances are both
    zero. -/
theorem c4_witness :
    detect_anomalies
      [⟨0, "ERROR", "a"⟩, ⟨1, "ERROR", "b"⟩, ⟨2, "ERROR", "c"⟩, ⟨3, "ERROR", "d"⟩] 2 = [] ∧
    (detect_anomalies
      [⟨0, "ERROR", "a"⟩, ⟨1, "ERROR", "b"⟩, ⟨2, "ERROR", "c"⟩, ⟨3, "ERROR", "d"⟩,
        ⟨4, "ERROR", "e"⟩] 2).all (fun a => a.atype != "high_error_rate") = true ∧
    (detect_anomalies
      [⟨0, "ERROR", "a"⟩, ⟨1, "ERROR", "b"⟩, ⟨2, "ERROR", "c"⟩, ⟨3, "ERROR", "d"⟩,
        ⟨4, "ERROR", "e"⟩] 2).all (fun a => a.atype != "volume_spike") = true :=
  ⟨c4_anomaly_guards.1 _ 2 (by decide),
    c4_anomaly_guards.2.1 _ 2 (by
      have hb : minuteBuckets
          [⟨0, "ERROR", "a"⟩, ⟨1, "ERROR", "b"⟩, ⟨2, "ERROR", "c"⟩, ⟨3, "ERROR", "d"⟩,
            ⟨4, "ERROR", "e"⟩] = [(0, 5, 5)] := rfl
      unfold rateVariance
      rw [hb]
      norm_num [rateList, bucketRate, varQ, meanQ, List.sum_cons, List.sum_nil]),
    c4_anomaly_guards.2.2 _ 2 (by
      have hb : minuteBuckets
          [⟨0, "ERROR", "a"⟩, ⟨1, "ERROR", "b"⟩, ⟨2, "ERROR", "c"⟩, ⟨3, "ERROR", "d"⟩,
            ⟨4, "ERROR", "e"⟩] = [(0, 5, 5)] := rfl
      unfold volVariance
      rw [hb]
      norm_num [volListQ, varQ, meanQ, List.sum_cons, List.sum_nil])⟩

/-! ## C7 -/

theorem takeWhile_eq_filter_ts (stop : Int) :
    ∀ logs : List LogEntry,
      List.Pairwise (fun a b => a.timestamp ≤ b.timestamp) logs →
      logs.takeWhile (fun l => decide (l.timestamp ≤ stop)) =
        logs.filter (fun l => decide (l.timestamp ≤ stop)) := by
  intro logs
  induction logs with
  | nil => intro _; rfl
  | cons a l ih =>
    intro hp
    rw [List.pairwise_cons] at hp
    rcases hp with ⟨ha, hl⟩
    by_cases h : a.timestamp ≤ stop
    · simp [List.takeWhile_cons, List.filter_cons, h, ih hl]
    · have hemp : l.filter (fun e => decide (e.timestamp ≤ stop)) = [] := by
        rw [List.filter_eq_nil_iff]
        intro e he
        simp only [decide_eq_true_eq]
        intro hc
        exact h (le_trans (ha e he) hc)
      simp [List.takeWhile_cons, List.filter_cons, h, hemp]

theorem dropTake_eq_filter (start stop : Int) :
    ∀ logs : List LogEntry,
      List.Pairwise (fun a b => a.timestamp ≤ b.timestamp) logs →
      (logs.dropWhile (fun l => decide (l.timestamp < start))).takeWhile
          (fun l => decide (l.timestamp ≤ stop)) =
        logs.filter (inRange start stop) := by
  intro logs
  induction logs with
  | nil => intro _; rfl
  | cons a l ih =>
    intro hp
    rw [List.pairwise_cons] at hp
    rcases hp with ⟨ha, hl⟩
    by_cases h1 : a.timestamp < start
    · have hout : inRange start stop a = false := by
        simp only [inRange, decide_eq_false_iff_not]
        omega
      simp [List.dropWhile_cons, h1, List.filter_cons, hout, ih hl]
    · by_cases h2 : a.timestamp ≤ stop
      · have hin : inRange start stop a = true := by
          simp only [inRange, decide_eq_true_eq]
          omega
        have hcong : l.filter (fun e => decide (e.timestamp ≤ stop)) =
            l.filter (inRange start stop) := by
          apply List.filter_congr
          intro e he
          have hse : start ≤ e.timestamp := le_trans (not_lt.mp h1) (ha e he)
          simp only [inRange]
          rw [decide_eq_decide]
          constructor
          · intro hx
            exact ⟨hse, hx⟩
          · intro hx
            exact hx.2
        rw [List.dropWhile_cons, if_neg (by simpa using h1), List.takeWhile_cons,
          if_pos (by simpa using h2), List.filter_cons]
        simp only [hin, if_true]
        rw [takeWhile_eq_filter_ts stop l hl, hcong]
      · have hout : inRange start stop a = false := by
          simp only [inRange, decide_eq_false_iff_not]
          omega
        have hemp : l.filter (inRange start stop) = [] := by
          rw [List.filter_eq_nil_iff]
          intro e he
          have := ha e he
          simp only [inRange, decide_eq_true_eq]
          omega
        simp [List.dropWhile_cons, h1, List.takeWhile_cons, h2, List.filter_cons, hout, hemp]

theorem analyze_time_range_eq_filter (logs : List LogEntry) (start stop : Int)
    (hp : List.Pairwise (fun a b => a.timestamp ≤ b.timestamp) logs) :
    analyze_time_range logs start stop =
      ⟨(logs.filter (inRange start stop)).length,
        ((logs.filter (inRange start stop)).filter (fun l => l.level == "ERROR")).length,
        ((logs.filter (inRange start stop)).filter (fun l => l.level == "WARN")).length⟩ := by
  unfold analyze_time_range
  rw [dropTake_eq_filter start stop logs hp]

/-- Claim C7: on a chronologically sorted record list with `start ≤ end`, the range
    slicer counts exactly the records with `start ≤ timestamp ≤ end` (the end
    bound inclusive), with `errors`/`warnings` counting the ERROR/WARN levels
    in that sub-range, and returns all-zero counts when no record falls in the
    range. -/
theorem c7_range_slicer :
    (∀ (logs : List LogEntry) (start stop : Int),
      List.Pairwise (fun a b => a.timestamp ≤ b.timestamp) logs → start ≤ stop →
      analyze_time_range logs start stop =
        ⟨(logs.filter (inRange start stop)).length,
          ((logs.filter (inRange start stop)).filter (fun l => l.level == "ERROR")).length,
          ((logs.filter (inRange start stop)).filter (fun l => l.level == "WARN")).length⟩) ∧
    (∀ (logs : List LogEntry) (start stop : Int),
      List.Pairwise (fun a b => a.timestamp ≤ b.timestamp) logs →
      (∀ l ∈ logs, inRange start stop l = false) →
      analyze_time_range logs start stop = ⟨0, 0, 0⟩) := by
  constructor
  · intro logs start stop hp _
    exact analyze_time_range_eq_filter logs start stop hp
  · intro logs start stop hp hnone
    have hemp : logs.filter (inRange start stop) = [] := by
      rw [List.filter_eq_nil_iff]
      intro e he
      rw [hnone e he]
      exact Bool.false_ne_true
    rw [analyze_time_range_eq_filter logs start stop hp, hemp]
    rfl

/-- Claim C7 (witness): the example of the spec — five sorted records spanning
    timestamps 0..1200 holding two ERROR and one WARN — sliced over the full
    range gives `{total 5, errors 2, warnings 1}`, and over a disjoint later
    range gives all zeros. -/
theorem c7_witness :
    analyze_time_range
      [⟨0, "INFO", "a"⟩, ⟨300, "ERROR", "b"⟩, ⟨600, "WARN", "c"⟩, ⟨900, "ERROR", "d"⟩,
        ⟨1200, "INFO", "e"⟩] 0 1200 = ⟨5, 2, 1⟩ ∧
    analyze_time_range
      [⟨0, "INFO", "a"⟩, ⟨300, "ERROR", "b"⟩, ⟨600, "WARN", "c"⟩, ⟨900, "ERROR", "d"⟩,
        ⟨1200, "INFO", "e"⟩] 5000 9000 = ⟨0, 0, 0⟩ :=
  ⟨(c7_range_slicer.1 _ 0 1200 (by decide) (by decide)).trans (by decide),
    c7_range_slicer.2 _ 5000 9000 (by decide) (by decide)⟩

/-! ## C8 -/

theorem countNorm_cons (e : LogEntry) (ls : List LogEntry) (k : String) :
    countNorm (e :: ls) k =
      if e.level == "ERROR" && normalize e.message == k then countNorm ls k + 1
      else countNorm ls k := by
  by_cases h : (e.level == "ERROR" && normalize e.message == k) = true
  · simp [countNorm, List.filter_cons, h]
  · simp [countNorm, List.filter_cons, h]

theorem alGet_incr_self : ∀ (m : List (String × Nat)) (k : String),
    alGet (incr m k) k = some ((alGet m k).getD 0 + 1) := by
  intro m k
  induction m with
  | nil => simp [incr, alGet]
  | cons p r ih =>
    rcases p with ⟨a, n⟩
    by_cases h : a = k
    · simp [incr, alGet, h]
    · simp [incr, alGet, h, ih]

theorem alGet_incr_ne : ∀ (m : List (String × Nat)) (k k' : String), k' ≠ k →
    alGet (incr m k) k' = alGet m k' := by
  intro m k k' hne
  induction m with
  | nil => simp [incr, alGet, Ne.symm hne]
  | cons p r ih =>
    rcases p with ⟨a, n⟩
    by_cases h : a = k
    · subst h
      simp [incr, alGet, Ne.symm hne]
    · simp [incr, alGet, h, ih]

theorem alGet_eq_none_of_not_mem : ∀ (m : List (String × Nat)) (k : String),
    k ∉ m.map Prod.fst → alGet m k = none := by
  intro m k
  induction m with
  | nil => intro _; rfl
  | cons p r ih =>
    intro h
    rcases p with ⟨a, n⟩
    simp only [List.map_cons, List.mem_cons] at h
    push_neg at h
    rcases h with ⟨h1, h2⟩
    simp only [alGet]
    rw [if_neg (fun hh => h1 hh.symm)]
    exact ih h2

theorem map_fst_incr : ∀ (m : List (String × Nat)) (k : String),
    (incr m k).map Prod.fst =
      if k ∈ m.map Prod.fst then m.map Prod.fst else m.map Prod.fst ++ [k] := by
  intro m k
  induction m with
  | nil => simp [incr]
  | cons p r ih =>
    rcases p with ⟨a, n⟩
    by_cases h : a = k
    · subst h
      simp [incr]
    · have hka : ¬(k = a) := fun hh => h hh.symm
      by_cases hm : k ∈ r.map Prod.fst
      · simp [incr, h, ih, hm, hka]
      · simp [incr, h, ih, hm, hka]

theorem nodup_map_fst_incr (m : List (String × Nat)) (k : String)
    (h : (m.map Prod.fst).Nodup) : ((incr m k).map Prod.fst).Nodup := by
  rw [map_fst_incr]
  by_cases hm : k ∈ m.map Prod.fst
  · simp only [hm, if_true]
    exact h
  · simp only [hm, if_false]
    rw [List.nodup_append]
    refine ⟨h, List.nodup_singleton k, ?_⟩
    intro x hx hk
    rw [List.mem_singleton] at hk
    exact hm (hk ▸ hx)

theorem nodup_errorCounts_fold :
    ∀ (logs : List LogEntry) (acc : List (String × Nat)), (acc.map Prod.fst).Nodup →
      ((List.foldl
        (fun acc e => if e.level = "ERROR" then incr acc (normalize e.message) else acc)
        acc logs).map Prod.fst).Nodup := by
  intro logs
  induction logs with
  | nil => intro acc h; exact h
  | cons e ls ih =>
    intro acc h
    rw [List.foldl_cons]
    by_cases herr : e.level = "ERROR"
    · rw [if_pos herr]
      exact ih _ (nodup_map_fst_incr acc (normalize e.message) h)
    · rw [if_neg herr]
      exact ih _ h

theorem alGet_errorCounts_fold :
    ∀ (logs : List LogEntry) (acc : List (String × Nat)) (k : String),
      alGet (List.foldl
          (fun acc e => if e.level = "ERROR" then incr acc (normalize e.message) else acc)
          acc logs) k =
        match alGet acc k with
        | some v => some (v + countNorm logs k)
        | none => if countNorm logs k = 0 then none else some (countNorm logs k) := by
  intro logs
  induction logs with
  | nil =>
    intro acc k
    rcases h : alGet acc k with _ | v <;> simp [countNorm, h]
  | cons e ls ih =>
    intro acc k
    rw [List.foldl_cons]
    by_cases herr : e.level = "ERROR"
    · rw [if_pos herr]
      by_cases hk : normalize e.message = k
      · rw [ih (incr acc (normalize e.message)) k, hk, alGet_incr_self]
        have hcnt : countNorm (e :: ls) k = countNorm ls k + 1 := by
          rw [countNorm_cons, if_pos (by simp [herr, hk])]
        rw [hcnt]
        rcases h : alGet acc k with _ | v
        · simp only [h, Option.getD_none]
          split
          · exfalso
            omega
          · simp only [Option.some.injEq]
            omega
        · simp only [h, Option.getD_some, Option.some.injEq]
          omega
      · rw [ih (incr acc (normalize e.message)) k,
          alGet_incr_ne acc (normalize e.message) k (fun hh => hk hh.symm)]
        have hcnt : countNorm (e :: ls) k = countNorm ls k := by
          rw [countNorm_cons, if_neg (by simp [hk])]
        rw [hcnt]
    · rw [if_neg herr]
      rw [ih acc k]
      have hcnt : countNorm (e :: ls) k = countNorm ls k := by
        rw [countNorm_cons, if_neg (by simp [herr])]
      rw [hcnt]

theorem alGet_filter (P : Nat → Bool) :
    ∀ (m : List (String × Nat)) (k : String), (m.map Prod.fst).Nodup →
      alGet (m.filter (fun kv => P kv.2)) k =
        (alGet m k).bind (fun v => if P v then some v else none) := by
  intro m k
  induction m with
  | nil => intro _; rfl
  | cons p r ih =>
    intro hnd
    rcases p with ⟨a, n⟩
    simp only [List.map_cons, List.nodup_cons] at hnd
    rcases hnd with ⟨hna, hnd⟩
    by_cases h : a = k
    · subst h
      by_cases hp : P n = true
      · simp [List.filter_cons, hp, alGet]
      · have hnone : alGet (r.filter (fun kv => P kv.2)) a = none := by
          apply alGet_eq_none_of_not_mem
          intro hmem
          exact hna (((List.filter_sublist r).map Prod.fst).subset hmem)
        simp [List.filter_cons, hp, alGet, hnone]
    · by_cases hp : P n = true
      · simp [List.filter_cons, hp, alGet, h, ih hnd]
      · simp [List.filter_cons, hp, alGet, h, ih hnd]

/-- Claim C8: the pattern aggregator maps each normalized ERROR message (every
    maximal digit run replaced by `N`) that occurs at least `min_occurrences`
    times to its exact occurrence count, and contains no other entry; in
    particular the three timeout messages on ports 8080, 3000 and 5432 with
    `min_occurrences = 3` collapse to the single key `Timeout on port N` with
    count 3. -/
theorem c8_pattern_aggregator :
    (∀ (logs : List LogEntry) (m : Nat) (k : String),
      alGet (find_repeated_patterns logs m) k =
        if 0 < countNorm logs k ∧ m ≤ countNorm logs k then some (countNorm logs k)
        else none) ∧
    find_repeated_patterns
      [⟨0, "ERROR", "Timeout on port 8080"⟩, ⟨1, "ERROR", "Timeout on port 3000"⟩,
        ⟨2, "ERROR", "Timeout on port 5432"⟩] 3 = [("Timeout on port N", 3)] := by
  constructor
  · intro logs m k
    unfold find_repeated_patterns
    rw [alGet_filter (fun v => decide (m ≤ v)) (errorCounts logs) k
      (nodup_errorCounts_fold logs [] (by simp))]
    have h1 := alGet_errorCounts_fold logs [] k
    simp only [alGet] at h1
    rw [show errorCounts logs = List.foldl
      (fun acc e => if e.level = "ERROR" then incr acc (normalize e.message) else acc)
      [] logs from rfl, h1]
    by_cases hz : countNorm logs k = 0
    · simp [hz]
    · by_cases hm : m ≤ countNorm logs k
      · simp [hz, hm, Nat.pos_of_ne_zero hz]
      · simp [hz, hm]
  · rfl

/-! ## C10 -/

theorem spikeStep_snd (wm th : Int) (acc : List Int × List (Int × Nat)) (e : LogEntry) :
    (spikeStep wm th acc e).2 = acc.2 ∨
      ∃ c : Nat, (spikeStep wm th acc e).2 = acc.2 ++ [(e.timestamp, c)] ∧
        e.level = "ERROR" ∧ th ≤ (c : Int) := by
  unfold spikeStep
  by_cases herr : e.level = "ERROR"
  · rw [if_pos herr]
    by_cases hth : th ≤ ((popOld e.timestamp (wm * 60) (acc.1 ++ [e.timestamp])).length : Int)
    · right
      exact ⟨(popOld e.timestamp (wm * 60) (acc.1 ++ [e.timestamp])).length,
        by simp [hth], herr, hth⟩
    · left
      simp [hth]
  · rw [if_neg herr]
    exact Or.inl rfl

theorem spikes_foldl_mem (wm th : Int) :
    ∀ (logs : List LogEntry) (acc : List Int × List (Int × Nat)) (p : Int × Nat),
      p ∈ (List.foldl (spikeStep wm th) acc logs).2 →
      p ∈ acc.2 ∨ (th ≤ (p.2 : Int) ∧ ∃ e, e ∈ logs ∧ e.level = "ERROR" ∧ e.timestamp = p.1) := by
  intro logs
  induction logs with
  | nil => intro acc p hp; exact Or.inl hp
  | cons e ls ih =>
    intro acc p hp
    rw [List.foldl_cons] at hp
    rcases ih (spikeStep wm th acc e) p hp with hmem | ⟨hth, e', he', herr, hts⟩
    · rcases spikeStep_snd wm th acc e with h | ⟨c, h, herr, hth⟩
      · rw [h] at hmem
        exact Or.inl hmem
      · rw [h] at hmem
        rcases List.mem_append.1 hmem with h2 | h2
        · exact Or.inl h2
        · rw [List.mem_singleton] at h2
          subst h2
          exact Or.inr ⟨hth, e, List.mem_cons_self e ls, herr, rfl⟩
    · exact Or.inr ⟨hth, e', List.mem_cons_of_mem e he', herr, hts⟩

theorem spikes_foldl_mono (wm th : Int) :
    ∀ (logs : List LogEntry) (acc : List Int × List (Int × Nat)),
      List.Pairwise (fun a b : LogEntry => a.timestamp ≤ b.timestamp) logs →
      List.Pairwise (fun p q : Int × Nat => p.1 ≤ q.1) acc.2 →
      (∀ p ∈ acc.2, ∀ e ∈ logs, p.1 ≤ e.timestamp) →
      List.Pairwise (fun p q : Int × Nat => p.1 ≤ q.1)
        (List.foldl (spikeStep wm th) acc logs).2 := by
  intro logs
  induction logs with
  | nil => intro acc _ hacc _; exact hacc
  | cons e ls ih =>
    intro acc hp hacc hfwd
    rw [List.pairwise_cons] at hp
    rcases hp with ⟨he, hls⟩
    rw [List.foldl_cons]
    rcases spikeStep_snd wm th acc e with h | ⟨c, h, -, -⟩
    · apply ih (spikeStep wm th acc e) hls
      · rw [h]
        exact hacc
      · rw [h]
        intro p hpm e' he'
        exact hfwd p hpm e' (List.mem_cons_of_mem e he')
    · apply ih (spikeStep wm th acc e) hls
      · rw [h, List.pairwise_append]
        refine ⟨hacc, by simp, ?_⟩
        intro p hpm q hq
        rw [List.mem_singleton] at hq
        subst hq
        exact hfwd p hpm e (List.mem_cons_self e ls)
      · rw [h]
        intro p hpm e' he'
        rcases List.mem_append.1 hpm with h2 | h2
        · exact hfwd p h2 e' (List.mem_cons_of_mem e he')
        · rw [List.mem_singleton] at h2
          subst h2
          exact he e' he'

/-- Claim C10: for every record list and threshold at least 1, each spike `(t, c)`
    emitted by the spike detector satisfies `c ≥ threshold` and `t` is the
    timestamp of some ERROR record of the input; and when the input timestamps
    are non-decreasing, the emitted spike timestamps are non-decreasing too. -/
theorem c10_spike_invariants (logs : List LogEntry) (wm th : Int) (hth : 1 ≤ th) :
    (∀ p ∈ find_error_spikes logs wm th,
      th ≤ (p.2 : Int) ∧ ∃ e, e ∈ logs ∧ e.level = "ERROR" ∧ e.timestamp = p.1) ∧
    (List.Pairwise (fun a b : LogEntry => a.timestamp ≤ b.timestamp) logs →
      List.Pairwise (fun p q : Int × Nat => p.1 ≤ q.1) (find_error_spikes logs wm th)) := by
  constructor
  · intro p hp
    rcases spikes_foldl_mem wm th logs ([], []) p hp with h | h
    · exact absurd h (List.not_mem_nil p)
    · exact h
  · intro hsorted
    exact spikes_foldl_mono wm th logs ([], []) hsorted List.Pairwise.nil
      (fun p hp => absurd hp (List.not_mem_nil p))

/-- Claim C10 (witness): the invariants applied to a concrete four-record list with
    window 5 minutes and threshold 2. -/
theorem c10_witness :
    (∀ p ∈ find_error_spikes
        [⟨0, "ERROR", "a"⟩, ⟨10, "INFO", "b"⟩, ⟨20, "ERROR", "c"⟩, ⟨30, "ERROR", "d"⟩] 5 2,
      2 ≤ (p.2 : Int) ∧ ∃ e, e ∈
        [(⟨0, "ERROR", "a"⟩ : LogEntry), ⟨10, "INFO", "b"⟩, ⟨20, "ERROR", "c"⟩,
          ⟨30, "ERROR", "d"⟩] ∧ e.level = "ERROR" ∧ e.timestamp = p.1) ∧
    List.Pairwise (fun p q : Int × Nat => p.1 ≤ q.1)
      (find_error_spikes
        [⟨0, "ERROR", "a"⟩, ⟨10, "INFO", "b"⟩, ⟨20, "ERROR", "c"⟩, ⟨30, "ERROR", "d"⟩] 5 2) :=
  ⟨(c10_spike_invariants
      [⟨0, "ERROR", "a"⟩, ⟨10, "INFO", "b"⟩, ⟨20, "ERROR", "c"⟩, ⟨30, "ERROR", "d"⟩] 5 2
      (by decide)).1,
    (c10_spike_invariants
      [⟨0, "ERROR", "a"⟩, ⟨10, "INFO", "b"⟩, ⟨20, "ERROR", "c"⟩, ⟨30, "ERROR", "d"⟩] 5 2
      (by decide)).2 (by decide)⟩

end LogAnalyzer
